import Mathlib

/-! Verification development for the rusty-spinner worker-pool repository.

The development shallowly embeds the two source files of the repository:

* src/lib.rs: PoolCreationError, Worker::new, ThreadPool::build and
  ThreadPool::execute, together with the worker run loop.  Pool
  construction is modelled as a trace-producing function (build) so that
  resource-allocation events (channel creation, thread spawns, joins) are
  observable; the running pool is modelled as a labelled transition
  system (Step) over PoolState.
* src/main.rs: the accept loop and handle_connection, modelled as pure
  functions from the request line and a file-system oracle to the text
  written to stdout and to the TCP stream.

Machine integers (usize) are modelled as Nat; std::io::Error values are
modelled as abstract Nat error codes; jobs (boxed closures) are modelled
by the Nat submission index together with an oracle telling whether the
job's body panics when run.
-/

namespace RustySpinner

/-- Occurrence count of an element in a list, used to state delivery and
execution multiplicities (delivered at most once, executed at most once). -/
def cnt {α : Type} [DecidableEq α] (a : α) : List α → Nat
  | [] => 0
  | b :: t => (if b = a then 1 else 0) + cnt a t

theorem cnt_append {α : Type} [DecidableEq α] (a : α) (l r : List α) :
    cnt a (l ++ r) = cnt a l + cnt a r := by
  induction l with
  | nil => simp [cnt]
  | cons b t ih => simp [cnt, ih]; omega

theorem cnt_set {α : Type} [DecidableEq α] (a x y : α) :
    ∀ (l : List α) (i : Nat), l[i]? = some y →
      cnt a (l.set i x) + (if y = a then 1 else 0)
        = cnt a l + (if x = a then 1 else 0)
  | [], i, h => by simp at h
  | b :: t, 0, h => by
      simp at h
      subst h
      simp [cnt, List.set]
      omega
  | b :: t, i + 1, h => by
      simp at h
      have ih := cnt_set a x y t i h
      simp [cnt, List.set]
      omega

theorem get_set_self {α : Type} (x y : α) :
    ∀ (l : List α) (i : Nat), l[i]? = some y → (l.set i x)[i]? = some x
  | [], i, h => by simp at h
  | _ :: _, 0, _ => by simp [List.set]
  | b :: t, i + 1, h => by
      simp at h
      simp [List.set]
      exact get_set_self x y t i h

theorem get_set_other {α : Type} (x : α) :
    ∀ (l : List α) (i j : Nat), i ≠ j → (l.set i x)[j]? = l[j]?
  | [], _, _, _ => by simp
  | _ :: _, 0, 0, h => absurd rfl h
  | _ :: _, 0, _ + 1, _ => by simp [List.set]
  | _ :: _, _ + 1, 0, _ => by simp [List.set]
  | b :: t, i + 1, j + 1, h => by
      simp [List.set]
      exact get_set_other x t i j (fun e => h (by rw [e]))

theorem cnt_range (j : Nat) : ∀ n, cnt j (List.range n) = if j < n then 1 else 0
  | 0 => by simp [cnt]
  | n + 1 => by
      rw [List.range_succ, cnt_append]
      simp [cnt, cnt_range j n]
      split_ifs <;> omega

theorem cnt_replicate {α : Type} [DecidableEq α] (a b : α) (h : b ≠ a) :
    ∀ n, cnt a (List.replicate n b) = 0
  | 0 => rfl
  | n + 1 => by simp [List.replicate_succ, cnt, h, cnt_replicate a b h n]

/-- Model of the PoolCreationError enum of src/lib.rs (lines 8-11).  The
payload of ThreadSpawnError, std::io::Error in the source, is modelled as
an abstract Nat error code. -/
inductive PoolCreationError
  | invalidSize
  | threadSpawnError (cause : Nat)
deriving DecidableEq

/-- Model of the Worker struct of src/lib.rs (lines 31-34).  The join
handle field has no data content relevant to the claims; the worker keeps
its id. -/
structure Worker where
  id : Nat
deriving DecidableEq

/-- Model of the ThreadPool struct of src/lib.rs (lines 60-63), as
returned by build: the vector of workers.  (The sender half of the
channel is modelled in the transition system below.) -/
structure ThreadPool where
  workers : List Worker
deriving DecidableEq

/-- Resource-allocation events performed by ThreadPool::build, in order:
creation of the mpsc channel (line 74), a successful thread spawn inside
Worker::new (line 43), and a join of a spawned worker thread.  The source
contains no call to JoinHandle::join anywhere, so no execution path of
the model emits a joined event; the constructor exists so that the
absence of joins on the partial-failure path is a statable property. -/
inductive BuildEvent
  | channelCreated
  | spawned (id : Nat)
  | joined (id : Nat)
deriving DecidableEq

/-- Model of the spawn loop of ThreadPool::build (lines 77-80):
map Worker::new over the ids and collect with the fail-fast semantics of
collect into Result (the first spawn error aborts the collection).  The
parameter spawn gives the OS outcome of each spawn attempt: none means
success, some e means the OS refused with error code e.  Successful
spawns before a failure emit their spawned event and their threads are
left behind exactly as in the source, where the partially collected
vector of Workers is dropped (detaching the join handles). -/
def spawnWorkers (spawn : Nat → Option Nat) : List Nat → List BuildEvent × Except Nat (List Worker)
  | [] => ([], Except.ok [])
  | id :: rest =>
    match spawn id with
    | some e => ([], Except.error e)
    | none =>
      match spawnWorkers spawn rest with
      | (evs, Except.error e) => (BuildEvent.spawned id :: evs, Except.error e)
      | (evs, Except.ok ws) => (BuildEvent.spawned id :: evs, Except.ok (Worker.mk id :: ws))

/-- Model of ThreadPool::build (src/lib.rs lines 69-83), returning both
the list of resource-allocation events it performed and its result.
Size zero is rejected before anything is allocated; otherwise the channel
is created and size spawns are attempted over ids 0..size, the first
failure being mapped through PoolCreationError.threadSpawnError. -/
def build (spawn : Nat → Option Nat) (size : Nat) : List BuildEvent × Except PoolCreationError ThreadPool :=
  if size = 0 then ([], Except.error PoolCreationError.invalidSize)
  else
    match spawnWorkers spawn (List.range size) with
    | (evs, Except.error e) =>
        (BuildEvent.channelCreated :: evs, Except.error (PoolCreationError.threadSpawnError e))
    | (evs, Except.ok ws) =>
        (BuildEvent.channelCreated :: evs, Except.ok (ThreadPool.mk ws))

theorem spawnWorkers_all_ok (spawn : Nat → Option Nat) :
    ∀ ids : List Nat, (∀ i ∈ ids, spawn i = none) →
      spawnWorkers spawn ids = (ids.map BuildEvent.spawned, Except.ok (ids.map Worker.mk))
  | [], _ => rfl
  | id :: rest, h => by
      have hid : spawn id = none := h id (List.mem_cons_self id rest)
      have ih := spawnWorkers_all_ok spawn rest (fun i hi => h i (List.mem_cons_of_mem id hi))
      simp [spawnWorkers, hid, ih]

theorem spawnWorkers_first_error (spawn : Nat → Option Nat) (i e : Nat) (post : List Nat)
    (hi : spawn i = some e) :
    ∀ pre : List Nat, (∀ j ∈ pre, spawn j = none) →
      (spawnWorkers spawn (pre ++ i :: post)).2 = Except.error e
  | [], _ => by simp [spawnWorkers, hi]
  | p :: pre, h => by
      have hp : spawn p = none := h p (List.mem_cons_self p pre)
      have ih := spawnWorkers_first_error spawn i e post hi pre
        (fun j hj => h j (List.mem_cons_of_mem p hj))
      simp only [List.cons_append, spawnWorkers, hp]
      cases hrec : spawnWorkers spawn (pre ++ i :: post) with
      | mk evs res =>
        rw [hrec] at ih
        simp at ih
        subst ih
        simp

/-- Boolean test for a join event, used to state that a build trace
contains no join of any worker thread. -/
def isJoinEvent : BuildEvent → Bool
  | BuildEvent.joined _ => true
  | _ => false

/-- C2: build(0) always fails with InvalidSize, for every process state
(modelled by quantifying over every spawn-outcome oracle); the error is
the synchronous return value and the event trace is empty, so no channel
is created and no thread is spawned before returning. -/
theorem build_zero_invalid_size_no_alloc (spawn : Nat → Option Nat) :
    build spawn 0 = ([], Except.error PoolCreationError.invalidSize) := rfl

/-- C3: for every size n with 1 ≤ n, when every thread spawn succeeds,
build n creates the channel, spawns workers with ids 0..n in order, and
returns Ok with a pool of exactly n workers whose ids are exactly the
list 0..n. -/
theorem build_pos_all_spawn_ok (spawn : Nat → Option Nat) (n : Nat)
    (hn : 1 ≤ n) (hok : ∀ i, i < n → spawn i = none) :
    build spawn n
      = (BuildEvent.channelCreated :: (List.range n).map BuildEvent.spawned,
         Except.ok (ThreadPool.mk ((List.range n).map Worker.mk)))
    ∧ ((List.range n).map Worker.mk).length = n
    ∧ ((List.range n).map Worker.mk).map Worker.id = List.range n := by
  have hall : ∀ i ∈ List.range n, spawn i = none := fun i hi => hok i (List.mem_range.mp hi)
  have hsw := spawnWorkers_all_ok spawn (List.range n) hall
  have hne : ¬ n = 0 := by omega
  refine ⟨by simp [build, hne, hsw], by simp, ?_⟩
  rw [List.map_map, show Worker.id ∘ Worker.mk = id from rfl, List.map_id]

/-- Witness for C3 at size 2 with an always-succeeding spawn oracle. -/
theorem build_pos_witness :
    1 ≤ 2 ∧
    (build (fun _ => none) 2
        = (BuildEvent.channelCreated :: (List.range 2).map BuildEvent.spawned,
           Except.ok (ThreadPool.mk ((List.range 2).map Worker.mk)))
      ∧ ((List.range 2).map Worker.mk).length = 2
      ∧ ((List.range 2).map Worker.mk).map Worker.id = List.range 2) :=
  ⟨by decide, build_pos_all_spawn_ok (fun _ => none) 2 (by decide) (fun _ _ => rfl)⟩

/-- C4: if the spawn attempt at the first failing index i fails with OS
error e (all earlier spawns having succeeded), build as a whole returns
the error ThreadSpawnError e wrapping that cause, so no partial pool is
handed to the caller. -/
theorem build_spawn_failure_propagates (spawn : Nat → Option Nat) (n i e : Nat)
    (hin : i < n) (hi : spawn i = some e) (hpre : ∀ j, j < i → spawn j = none) :
    (build spawn n).2 = Except.error (PoolCreationError.threadSpawnError e) := by
  have hne : ¬ n = 0 := by omega
  obtain ⟨post, hdecomp⟩ : ∃ post, List.range n = List.range i ++ i :: post := by
    have h1 : n = i + (n - i - 1 + 1) := by omega
    refine ⟨((List.range (n - i - 1)).map Nat.succ).map (fun x => i + x), ?_⟩
    rw [h1, List.range_add, List.range_succ_eq_map]
    simp
  have hfirst := spawnWorkers_first_error spawn i e post hi (List.range i)
    (fun j hj => hpre j (List.mem_range.mp hj))
  rw [← hdecomp] at hfirst
  cases hsw : spawnWorkers spawn (List.range n) with
  | mk evs res =>
    rw [hsw] at hfirst
    simp at hfirst
    subst hfirst
    simp [build, hne, hsw]

/-- Spawn-outcome oracle for the C4 witness: the spawn of worker 1 is
refused by the OS with error code 42, every other spawn succeeds. -/
def spawnRefusedAt1 : Nat → Option Nat := fun i => if i = 1 then some 42 else none

/-- Witness for C4: requesting 3 workers when the spawn of worker 1
fails with code 42 makes build return ThreadSpawnError 42. -/
theorem build_spawn_failure_witness :
    1 < 3 ∧ spawnRefusedAt1 1 = some 42
    ∧ (∀ j, j < 1 → spawnRefusedAt1 j = none)
    ∧ (build spawnRefusedAt1 3).2 = Except.error (PoolCreationError.threadSpawnError 42) :=
  ⟨by decide, rfl, fun j hj => by
      have hj0 : j = 0 := by omega
      subst hj0
      rfl,
    build_spawn_failure_propagates spawnRefusedAt1 3 1 42 (by decide) rfl
      (fun j hj => by
        have hj0 : j = 0 := by omega
        subst hj0
        rfl)⟩

/-- Spawn-outcome oracle for C5: the spawn of worker 0 succeeds, the
spawn of worker 1 is refused with error code 11. -/
def spawnLeakOracle : Nat → Option Nat := fun i => if i = 0 then none else some 11

/-- C5 (evidence of the code bug): with two requested workers, where
worker 0 spawns and the spawn of worker 1 then fails, build created the
channel and spawned worker 0, returns the spawn error, and its event
trace contains no join event at all: the already-spawned worker thread
is dropped (its join handle discarded, detaching the thread) rather than
joined or disposed of before the error is propagated.  The source
contains no call to join on any path. -/
theorem build_partial_failure_leaks_worker :
    build spawnLeakOracle 2
      = ([BuildEvent.channelCreated, BuildEvent.spawned 0],
         Except.error (PoolCreationError.threadSpawnError 11))
    ∧ BuildEvent.spawned 0 ∈ (build spawnLeakOracle 2).1
    ∧ (build spawnLeakOracle 2).1.filter isJoinEvent = [] := by
  refine ⟨by rfl, by decide, by decide⟩

/-- State of one worker thread running the loop of Worker::new
(src/lib.rs lines 43-53).  idle: about to call lock on the shared
receiver.  recvWait: holds the mutex and is blocked inside recv (in the
source the MutexGuard is a temporary of the let statement, so it is held
for the whole recv call).  running j: the guard has been dropped at the
end of the let statement and the worker is executing job j.  dead: the
thread has terminated (by a panic; the loop itself has no exit). -/
inductive WState
  | idle
  | recvWait
  | running (j : Nat)
  | dead
deriving DecidableEq

/-- Global state of a built pool and its workers.  Jobs are identified by
their submission index (nextId counts calls to execute, so the sequence
of ids ever enqueued is 0..nextId).  queue is the channel buffer in FIFO
order; lock records which worker, if any, holds the mutex around the
receiver; poisoned records whether a MutexGuard was ever dropped during a
panic; senderAlive is false once the pool (hence its Sender) has been
dropped.  delivered logs (worker, job) pairs in dequeue order and
executedLog logs the jobs whose call returned, so delivery and execution
multiplicities are statable. -/
structure PoolState where
  workers : List WState
  queue : List Nat
  lock : Option Nat
  poisoned : Bool
  senderAlive : Bool
  nextId : Nat
  delivered : List (Nat × Nat)
  executedLog : List Nat
deriving DecidableEq

/-- State immediately after a successful ThreadPool::build n: n idle
workers sharing a fresh empty channel whose sender the pool holds. -/
def initState (n : Nat) : PoolState :=
  { workers := List.replicate n WState.idle
    queue := []
    lock := none
    poisoned := false
    senderAlive := true
    nextId := 0
    delivered := []
    executedLog := [] }

/-- Boolean test for a terminated worker thread. -/
def isDeadW : WState → Bool
  | WState.dead => true
  | _ => false

/-- The mpsc Receiver is owned through an Arc cloned into every worker
thread, so it stays open exactly while some worker thread is alive;
Sender::send succeeds iff the receiver side is still open. -/
def sendOk (s : PoolState) : Bool :=
  s.workers.any (fun st => !(isDeadW st))

/-- Effect of a job panicking while a worker executes it (the call job()
at src/lib.rs line 52 unwinding): the worker thread terminates.  No lock
is held at that point in the source (the MutexGuard died at the end of
the let statement on line 48), so the mutex and its poison flag are
untouched. -/
def panicStep (s : PoolState) (w : Nat) : PoolState :=
  { s with workers := s.workers.set w WState.dead }

/-- Small-step semantics of the pool: ThreadPool::execute (lines 86-97)
interleaved with the worker loop of Worker::new (lines 43-53) and with
the owner dropping the pool.  The steps follow the source:

* execute: send the next job id into the channel (line 96); modelled
  only when send succeeds, i.e. while some worker thread is alive.
* acquire: an idle worker wins the lock (line 45) on an unpoisoned mutex
  and blocks in recv while holding the guard.
* acquirePoisoned: lock on a poisoned mutex returns Err, so the expect
  on line 46 panics and the worker dies.
* deliver: recv (line 47) yields the queue head to the lock holder; the
  guard is dropped at the end of the let statement, before the job runs.
* recvClosed: with the channel empty and the sender dropped, recv
  returns Err and the unwrap on line 48 panics while the guard is still
  live, killing the worker and poisoning the mutex.
* finish: the call job() on line 52 returns and the worker loops back.
* jobPanic: the call job() unwinds instead; see panicStep.
* dropPool: the owner drops the pool.  The source has no Drop impl for
  ThreadPool, so the drop only drops the Sender (closing the channel)
  and the workers vector with its join handles, joining nothing; it
  completes in this single step. -/
inductive Step (panics : Nat → Bool) : PoolState → PoolState → Prop
  | execute (s : PoolState) (hs : s.senderAlive = true) (hok : sendOk s = true) :
      Step panics s { s with queue := s.queue ++ [s.nextId], nextId := s.nextId + 1 }
  | acquire (s : PoolState) (w : Nat) (hw : s.workers[w]? = some WState.idle)
      (hl : s.lock = none) (hp : s.poisoned = false) :
      Step panics s { s with workers := s.workers.set w WState.recvWait, lock := some w }
  | acquirePoisoned (s : PoolState) (w : Nat) (hw : s.workers[w]? = some WState.idle)
      (hl : s.lock = none) (hp : s.poisoned = true) :
      Step panics s { s with workers := s.workers.set w WState.dead }
  | deliver (s : PoolState) (w j : Nat) (rest : List Nat)
      (hw : s.workers[w]? = some WState.recvWait) (hq : s.queue = j :: rest) :
      Step panics s { s with workers := s.workers.set w (WState.running j), queue := rest,
                             lock := none, delivered := s.delivered ++ [(w, j)] }
  | recvClosed (s : PoolState) (w : Nat) (hw : s.workers[w]? = some WState.recvWait)
      (hq : s.queue = []) (hs : s.senderAlive = false) :
      Step panics s { s with workers := s.workers.set w WState.dead, lock := none,
                             poisoned := true }
  | finish (s : PoolState) (w j : Nat) (hw : s.workers[w]? = some (WState.running j))
      (hpj : panics j = false) :
      Step panics s { s with workers := s.workers.set w WState.idle,
                             executedLog := s.executedLog ++ [j] }
  | jobPanic (s : PoolState) (w j : Nat) (hw : s.workers[w]? = some (WState.running j))
      (hpj : panics j = true) :
      Step panics s (panicStep s w)
  | dropPool (s : PoolState) (hs : s.senderAlive = true) :
      Step panics s { s with senderAlive := false }

/-- Reachability from a state by finitely many steps. -/
inductive Reach (panics : Nat → Bool) : PoolState → PoolState → Prop
  | refl (s : PoolState) : Reach panics s s
  | tail {a b c : PoolState} : Reach panics a b → Step panics b c → Reach panics a c

theorem stepCast {panics : Nat → Bool} {a b c : PoolState}
    (h : Step panics a b) (e : b = c) : Step panics a c := e ▸ h

/-- Safety invariant of the running pool: the jobs delivered so far, in
delivery order, followed by the jobs still queued, are exactly the ids
0..nextId in submission order; each job has completed or be running at
most as often as it was delivered; and the lock, when held, is held by a
worker blocked in recv. -/
def Inv (s : PoolState) : Prop :=
  (s.delivered.map Prod.snd ++ s.queue = List.range s.nextId)
  ∧ (∀ j, cnt j s.executedLog + cnt (WState.running j) s.workers
        ≤ cnt j (s.delivered.map Prod.snd))
  ∧ (∀ w, s.lock = some w → s.workers[w]? = some WState.recvWait)

theorem inv_init (n : Nat) : Inv (initState n) := by
  refine ⟨rfl, ?_, ?_⟩
  · intro j
    simp [initState, cnt,
      cnt_replicate (WState.running j) WState.idle (fun h => nomatch h) n]
  · intro w hw
    simp [initState] at hw

theorem inv_step {panics : Nat → Bool} {s s' : PoolState}
    (hinv : Inv s) (hstep : Step panics s s') : Inv s' := by
  obtain ⟨h1, h2, h3⟩ := hinv
  cases hstep with
  | execute hs hok =>
      refine ⟨?_, h2, h3⟩
      dsimp
      rw [← List.append_assoc, h1, List.range_succ]
  | acquire w hw hl hp =>
      refine ⟨h1, ?_, ?_⟩
      · intro j
        have hcs := cnt_set (WState.running j) WState.recvWait WState.idle s.workers w hw
        have h2j := h2 j
        simp at hcs
        dsimp
        omega
      · intro v hv
        dsimp at hv ⊢
        have hvw : v = w := by
          have := Option.some.inj hv
          omega
        subst hvw
        exact get_set_self WState.recvWait WState.idle s.workers v hw
  | acquirePoisoned w hw hl hp =>
      refine ⟨h1, ?_, ?_⟩
      · intro j
        have hcs := cnt_set (WState.running j) WState.dead WState.idle s.workers w hw
        have h2j := h2 j
        simp at hcs
        dsimp
        omega
      · intro v hv
        dsimp at hv
        simp [hl] at hv
  | deliver w j rest hw hq =>
      refine ⟨?_, ?_, ?_⟩
      · dsimp
        simp only [List.map_append, List.map_cons, List.map_nil, List.append_assoc,
          List.singleton_append]
        rw [← hq]
        exact h1
      · intro j'
        have hcs := cnt_set (WState.running j') (WState.running j) WState.recvWait s.workers w hw
        have h2j := h2 j'
        dsimp
        rw [List.map_append, cnt_append]
        by_cases hjj : j = j'
        · subst hjj
          simp [cnt] at hcs ⊢
          omega
        · simp [cnt, hjj] at hcs ⊢
          omega
      · intro v hv
        dsimp at hv
        simp at hv
  | recvClosed w hw hq hs =>
      refine ⟨h1, ?_, ?_⟩
      · intro j
        have hcs := cnt_set (WState.running j) WState.dead WState.recvWait s.workers w hw
        have h2j := h2 j
        simp at hcs
        dsimp
        omega
      · intro v hv
        dsimp at hv
        simp at hv
  | finish w j hw hpj =>
      refine ⟨h1, ?_, ?_⟩
      · intro j'
        have hcs := cnt_set (WState.running j') WState.idle (WState.running j) s.workers w hw
        have h2j := h2 j'
        dsimp
        rw [cnt_append]
        by_cases hjj : j = j'
        · subst hjj
          simp [cnt] at hcs ⊢
          omega
        · simp [cnt, hjj] at hcs ⊢
          omega
      · intro v hv
        dsimp at hv ⊢
        have hvv := h3 v hv
        have hvw : w ≠ v := by
          intro e
          rw [← e, hw] at hvv
          simp at hvv
        rw [get_set_other WState.idle s.workers w v hvw]
        exact hvv
  | jobPanic w j hw hpj =>
      refine ⟨h1, ?_, ?_⟩
      · intro j'
        have hcs := cnt_set (WState.running j') WState.dead (WState.running j) s.workers w hw
        have h2j := h2 j'
        dsimp [panicStep]
        by_cases hjj : j = j'
        · subst hjj
          simp [cnt] at hcs ⊢
          omega
        · simp [cnt, hjj] at hcs ⊢
          omega
      · intro v hv
        dsimp [panicStep] at hv ⊢
        have hvv := h3 v hv
        have hvw : w ≠ v := by
          intro e
          rw [← e, hw] at hvv
          simp at hvv
        rw [get_set_other WState.dead s.workers w v hvw]
        exact hvv
  | dropPool hs =>
      exact ⟨h1, h2, h3⟩

theorem reach_inv (panics : Nat → Bool) (n : Nat) {s : PoolState}
    (h : Reach panics (initState n) s) : Inv s := by
  induction h with
  | refl => exact inv_init n
  | tail hr hs ih => exact inv_step ih hs

/-- C1: on a successfully built pool, the jobs delivered to workers are
exactly a prefix of the submission sequence, in submission (FIFO) order,
with the undelivered jobs still queued behind them — so each enqueued job
is delivered to exactly one worker, at most once overall; and no job's
call completes more than once.  The single producer is the execute steps
of the transition system; panics ranges over all job behaviours. -/
theorem execute_fifo_exactly_once (panics : Nat → Bool) (n : Nat) (s : PoolState)
    (h : Reach panics (initState n) s) :
    s.delivered.map Prod.snd ++ s.queue = List.range s.nextId
    ∧ (∀ j, cnt j (s.delivered.map Prod.snd) ≤ 1)
    ∧ (∀ j, cnt j s.executedLog ≤ 1) := by
  obtain ⟨h1, h2, h3⟩ := reach_inv panics n h
  have hd : ∀ j, cnt j (s.delivered.map Prod.snd) ≤ 1 := by
    intro j
    have hsum := congrArg (cnt j) h1
    rw [cnt_append] at hsum
    have hb : cnt j (List.range s.nextId) ≤ 1 := by
      rw [cnt_range]
      split <;> omega
    omega
  refine ⟨h1, hd, ?_⟩
  intro j
  have h2j := h2 j
  have hdj := hd j
  omega

/-- Job-behaviour oracle where no job panics. -/
def panicsNone : Nat → Bool := fun _ => false

/-- Job-behaviour oracle where every job panics when run. -/
def panicsAll : Nat → Bool := fun _ => true

/-- Final state of the C1 witness trace: one worker, one job submitted,
delivered to worker 0 and completed. -/
def c1Final : PoolState :=
  { workers := [WState.idle]
    queue := []
    lock := none
    poisoned := false
    senderAlive := true
    nextId := 1
    delivered := [(0, 0)]
    executedLog := [0] }

/-- Witness for C1: a concrete reachable state (submit one job, worker 0
locks, dequeues and finishes it) satisfying the conclusions, obtained by
applying the C1 theorem. -/
theorem execute_fifo_witness :
    c1Final.delivered.map Prod.snd ++ c1Final.queue = List.range c1Final.nextId
    ∧ cnt 0 (c1Final.delivered.map Prod.snd) ≤ 1
    ∧ cnt 0 c1Final.executedLog ≤ 1 := by
  have h1 : Step panicsNone (initState 1)
      { workers := [WState.idle], queue := [0], lock := none, poisoned := false,
        senderAlive := true, nextId := 1, delivered := [], executedLog := [] } :=
    stepCast (Step.execute (initState 1) rfl (by decide)) (by decide)
  have h2 : Step panicsNone
      { workers := [WState.idle], queue := [0], lock := none, poisoned := false,
        senderAlive := true, nextId := 1, delivered := [], executedLog := [] }
      { workers := [WState.recvWait], queue := [0], lock := some 0, poisoned := false,
        senderAlive := true, nextId := 1, delivered := [], executedLog := [] } :=
    stepCast (Step.acquire _ 0 rfl rfl rfl) (by decide)
  have h3 : Step panicsNone
      { workers := [WState.recvWait], queue := [0], lock := some 0, poisoned := false,
        senderAlive := true, nextId := 1, delivered := [], executedLog := [] }
      { workers := [WState.running 0], queue := [], lock := none, poisoned := false,
        senderAlive := true, nextId := 1, delivered := [(0, 0)], executedLog := [] } :=
    stepCast (Step.deliver _ 0 0 [] rfl rfl) (by decide)
  have h4 : Step panicsNone
      { workers := [WState.running 0], queue := [], lock := none, poisoned := false,
        senderAlive := true, nextId := 1, delivered := [(0, 0)], executedLog := [] }
      c1Final :=
    stepCast (Step.finish _ 0 0 rfl rfl) (by decide)
  have hreach : Reach panicsNone (initState 1) c1Final :=
    Reach.tail (Reach.tail (Reach.tail (Reach.tail (Reach.refl _) h1) h2) h3) h4
  obtain ⟨a, b, c⟩ := execute_fifo_exactly_once panicsNone 1 c1Final hreach
  exact ⟨a, b 0, c 0⟩

/-- With no panicking jobs, no worker thread dies and no lock is poisoned
while the pool is alive, and the worker count stays fixed.  A worker can
die only through a job panic, through recv returning Err (which needs the
sender already dropped), or through a poisoned lock (which needs a prior
such death). -/
theorem alive_step {panics : Nat → Bool} (hnp : ∀ j, panics j = false) (n : Nat)
    {s s' : PoolState}
    (ih : s.workers.length = n
      ∧ (s.senderAlive = true → s.poisoned = false ∧ cnt WState.dead s.workers = 0))
    (hstep : Step panics s s') :
    s'.workers.length = n
    ∧ (s'.senderAlive = true → s'.poisoned = false ∧ cnt WState.dead s'.workers = 0) := by
  obtain ⟨ihlen, ihmain⟩ := ih
  cases hstep with
  | execute hs hok => exact ⟨ihlen, ihmain⟩
  | acquire w hw hl hp =>
      refine ⟨by dsimp; rw [List.length_set]; exact ihlen, ?_⟩
      intro halive
      obtain ⟨hp0, hc⟩ := ihmain halive
      refine ⟨hp0, ?_⟩
      have hcs := cnt_set WState.dead WState.recvWait WState.idle s.workers w hw
      simp at hcs
      dsimp
      omega
  | acquirePoisoned w hw hl hp =>
      refine ⟨by dsimp; rw [List.length_set]; exact ihlen, ?_⟩
      intro halive
      obtain ⟨hp0, _⟩ := ihmain halive
      rw [hp] at hp0
      exact absurd hp0 (by decide)
  | deliver w j rest hw hq =>
      refine ⟨by dsimp; rw [List.length_set]; exact ihlen, ?_⟩
      intro halive
      obtain ⟨hp0, hc⟩ := ihmain halive
      refine ⟨hp0, ?_⟩
      have hcs := cnt_set WState.dead (WState.running j) WState.recvWait s.workers w hw
      simp at hcs
      dsimp
      omega
  | recvClosed w hw hq hs =>
      refine ⟨by dsimp; rw [List.length_set]; exact ihlen, ?_⟩
      intro halive
      dsimp at halive
      rw [hs] at halive
      exact absurd halive (by decide)
  | finish w j hw hpj =>
      refine ⟨by dsimp; rw [List.length_set]; exact ihlen, ?_⟩
      intro halive
      obtain ⟨hp0, hc⟩ := ihmain halive
      refine ⟨hp0, ?_⟩
      have hcs := cnt_set WState.dead WState.idle (WState.running j) s.workers w hw
      simp at hcs
      dsimp
      omega
  | jobPanic w j hw hpj =>
      rw [hnp j] at hpj
      exact absurd hpj (by decide)
  | dropPool hs =>
      refine ⟨ihlen, ?_⟩
      intro halive
      dsimp at halive
      exact absurd halive (by decide)

theorem alive_no_dead {panics : Nat → Bool} (hnp : ∀ j, panics j = false) (n : Nat) :
    ∀ {s : PoolState}, Reach panics (initState n) s →
      s.workers.length = n
      ∧ (s.senderAlive = true → s.poisoned = false ∧ cnt WState.dead s.workers = 0) := by
  intro s h
  induction h with
  | refl =>
      refine ⟨by simp [initState], fun _ => ⟨rfl, ?_⟩⟩
      exact cnt_replicate WState.dead WState.idle (fun e => nomatch e) n
  | tail hr hstep ih => exact alive_step hnp n ih hstep

/-- C6 amended: while the owning pool is alive, the send inside execute
cannot fail as long as no submitted job panics — with non-panicking jobs
no worker thread ever dies before pool teardown, so the receiver side of
the channel stays open and the unwrap on send never panics. -/
theorem send_ok_while_alive_no_job_panics (panics : Nat → Bool) (n : Nat) (s : PoolState)
    (hnp : ∀ j, panics j = false) (hn : 1 ≤ n)
    (h : Reach panics (initState n) s) (halive : s.senderAlive = true) :
    sendOk s = true := by
  obtain ⟨hlen, hmain⟩ := alive_no_dead hnp n h
  obtain ⟨hpois, hcnt⟩ := hmain halive
  cases hws : s.workers with
  | nil => rw [hws] at hlen; simp at hlen; omega
  | cons st t =>
      rw [hws] at hcnt
      have hst : isDeadW st = false := by
        cases st with
        | dead => simp [cnt] at hcnt
        | idle => rfl
        | recvWait => rfl
        | running j => rfl
      unfold sendOk
      rw [hws]
      simp [hst]

/-- Witness for the amended C6 at the freshly built one-worker pool. -/
theorem send_ok_no_panics_witness :
    1 ≤ 1 ∧ (initState 1).senderAlive = true ∧ sendOk (initState 1) = true :=
  ⟨by decide, rfl,
    send_ok_while_alive_no_job_panics panicsNone 1 (initState 1) (fun _ => rfl) (by decide)
      (Reach.refl _) rfl⟩

/-- State refuting C6 as stated: pool still alive, single worker already
dead after running a panicking job. -/
def c6Final : PoolState :=
  { workers := [WState.dead]
    queue := []
    lock := none
    poisoned := false
    senderAlive := true
    nextId := 1
    delivered := [(0, 0)]
    executedLog := [] }

/-- Counterexample to C6 as stated: on a successfully built one-worker
pool that has not been dropped (senderAlive still true), submitting a
job whose body panics kills the only worker thread; its Arc clone of the
receiver is dropped, the channel's consumer side closes, and send — hence
the unwrap in execute — can then fail even though the pool is alive. -/
theorem send_unwrap_can_fail_while_alive :
    Reach panicsAll (initState 1) c6Final
    ∧ c6Final.senderAlive = true
    ∧ sendOk c6Final = false := by
  have h1 : Step panicsAll (initState 1)
      { workers := [WState.idle], queue := [0], lock := none, poisoned := false,
        senderAlive := true, nextId := 1, delivered := [], executedLog := [] } :=
    stepCast (Step.execute (initState 1) rfl (by decide)) (by decide)
  have h2 : Step panicsAll
      { workers := [WState.idle], queue := [0], lock := none, poisoned := false,
        senderAlive := true, nextId := 1, delivered := [], executedLog := [] }
      { workers := [WState.recvWait], queue := [0], lock := some 0, poisoned := false,
        senderAlive := true, nextId := 1, delivered := [], executedLog := [] } :=
    stepCast (Step.acquire _ 0 rfl rfl rfl) (by decide)
  have h3 : Step panicsAll
      { workers := [WState.recvWait], queue := [0], lock := some 0, poisoned := false,
        senderAlive := true, nextId := 1, delivered := [], executedLog := [] }
      { workers := [WState.running 0], queue := [], lock := none, poisoned := false,
        senderAlive := true, nextId := 1, delivered := [(0, 0)], executedLog := [] } :=
    stepCast (Step.deliver _ 0 0 [] rfl rfl) (by decide)
  have h4 : Step panicsAll
      { workers := [WState.running 0], queue := [], lock := none, poisoned := false,
        senderAlive := true, nextId := 1, delivered := [(0, 0)], executedLog := [] }
      c6Final :=
    stepCast (Step.jobPanic _ 0 0 rfl rfl) (by decide)
  exact ⟨Reach.tail (Reach.tail (Reach.tail (Reach.tail (Reach.refl _) h1) h2) h3) h4,
    rfl, rfl⟩

/-- State right after the owner's drop of a one-worker pool completes:
the sender is gone but the worker thread is still blocked in recv. -/
def c7Mid : PoolState :=
  { workers := [WState.recvWait]
    queue := []
    lock := some 0
    poisoned := false
    senderAlive := false
    nextId := 0
    delivered := []
    executedLog := [] }

/-- State after the abandoned worker finally reacts to the closed
channel: it has died by the unwrap panic, poisoning the mutex. -/
def c7End : PoolState :=
  { workers := [WState.dead]
    queue := []
    lock := none
    poisoned := true
    senderAlive := false
    nextId := 0
    delivered := []
    executedLog := [] }

/-- C7 (evidence of the code bug): ThreadPool has no Drop impl, so the
owner's drop is the single dropPool step.  After it completes on a
one-worker pool the worker is still inside its run loop (blocked in
recv) — nothing joined it — and the worker's subsequent exit is the
recvClosed transition: a panic on the unwrap of the Err from recv that
also poisons the mutex, not a clean Waiting to Terminated exit. -/
theorem drop_completes_without_join :
    Reach panicsNone (initState 1) c7Mid
    ∧ c7Mid.senderAlive = false
    ∧ c7Mid.workers = [WState.recvWait]
    ∧ Step panicsNone c7Mid c7End
    ∧ c7End.workers = [WState.dead]
    ∧ c7End.poisoned = true := by
  have h1 : Step panicsNone (initState 1)
      { workers := [WState.recvWait], queue := [], lock := some 0, poisoned := false,
        senderAlive := true, nextId := 0, delivered := [], executedLog := [] } :=
    stepCast (Step.acquire (initState 1) 0 rfl rfl rfl) (by decide)
  have h2 : Step panicsNone
      { workers := [WState.recvWait], queue := [], lock := some 0, poisoned := false,
        senderAlive := true, nextId := 0, delivered := [], executedLog := [] }
      c7Mid :=
    stepCast (Step.dropPool _ rfl) (by decide)
  have h3 : Step panicsNone c7Mid c7End :=
    stepCast (Step.recvClosed c7Mid 0 rfl rfl rfl) (by decide)
  exact ⟨Reach.tail (Reach.tail (Reach.refl _) h1) h2, rfl, rfl, h3, rfl, rfl⟩

/-- C8: in every reachable state, a worker that is executing a job does
not hold the mutex guarding the receiver (the MutexGuard dies at the end
of the let statement, before the job call), so the job panicking — the
panicStep transition — leaves the lock, the poison flag, the queue and
every other worker untouched: other workers can still acquire the lock
and dequeue subsequent jobs exactly as before. -/
theorem job_panic_preserves_queue_sync (panics : Nat → Bool) (n : Nat) (s : PoolState)
    (w j : Nat) (h : Reach panics (initState n) s)
    (hw : s.workers[w]? = some (WState.running j)) :
    s.lock ≠ some w
    ∧ (panicStep s w).lock = s.lock
    ∧ (panicStep s w).poisoned = s.poisoned
    ∧ (panicStep s w).queue = s.queue
    ∧ ∀ v, v ≠ w → (panicStep s w).workers[v]? = s.workers[v]? := by
  obtain ⟨-, -, h3⟩ := reach_inv panics n h
  refine ⟨?_, rfl, rfl, rfl, ?_⟩
  · intro he
    have hlk := h3 w he
    rw [hw] at hlk
    simp at hlk
  · intro v hv
    exact get_set_other WState.dead s.workers w v (fun e => hv e.symm)

/-- Reachable state for the C8 witness: worker 0 of a one-worker pool is
executing job 0 (whose body will panic). -/
def c8Final : PoolState :=
  { workers := [WState.running 0]
    queue := []
    lock := none
    poisoned := false
    senderAlive := true
    nextId := 1
    delivered := [(0, 0)]
    executedLog := [] }

/-- Witness for C8 applied at a concrete reachable executing state. -/
theorem job_panic_witness :
    c8Final.workers[0]? = some (WState.running 0)
    ∧ (panicStep c8Final 0).lock = c8Final.lock
    ∧ (panicStep c8Final 0).poisoned = c8Final.poisoned
    ∧ (panicStep c8Final 0).queue = c8Final.queue := by
  have h1 : Step panicsAll (initState 1)
      { workers := [WState.idle], queue := [0], lock := none, poisoned := false,
        senderAlive := true, nextId := 1, delivered := [], executedLog := [] } :=
    stepCast (Step.execute (initState 1) rfl (by decide)) (by decide)
  have h2 : Step panicsAll
      { workers := [WState.idle], queue := [0], lock := none, poisoned := false,
        senderAlive := true, nextId := 1, delivered := [], executedLog := [] }
      { workers := [WState.recvWait], queue := [0], lock := some 0, poisoned := false,
        senderAlive := true, nextId := 1, delivered := [], executedLog := [] } :=
    stepCast (Step.acquire _ 0 rfl rfl rfl) (by decide)
  have h3 : Step panicsAll
      { workers := [WState.recvWait], queue := [0], lock := some 0, poisoned := false,
        senderAlive := true, nextId := 1, delivered := [], executedLog := [] }
      c8Final :=
    stepCast (Step.deliver _ 0 0 [] rfl rfl) (by decide)
  have hreach : Reach panicsAll (initState 1) c8Final :=
    Reach.tail (Reach.tail (Reach.tail (Reach.refl _) h1) h2) h3
  have hth := job_panic_preserves_queue_sync panicsAll 1 c8Final 0 0 hreach (by decide)
  exact ⟨by decide, hth.2.1, hth.2.2.1, hth.2.2.2.1⟩

/-- Model of the route match of handle_connection (src/main.rs lines
47-57): the request line selects the status line and the file name.  The
sleep in the second arm has no observable effect on the produced text
and is not modelled. -/
def requestRoute (request_line : String) : String × String :=
  if request_line = "GET / HTTP/1.1" then ("HTTP/1.1 200 OK", "hello.html")
  else if request_line = "GET /sleep HTTP/1.1" then ("HTTP/1.1 200 OK", "hello.html")
  else ("HTTP/1.1 404 NOT FOUND", "404.html")

/-- Observable output of one call to handle_connection: the lines it
prints to stdout and the strings it writes to the TCP stream. -/
structure HandleResult where
  stdoutLines : List String
  streamWrites : List String
deriving DecidableEq

/-- Model of handle_connection (src/main.rs lines 37-70).  The file
system is an oracle fs from file name to contents (fs::read_to_string
succeeding, as the source unwraps it); the byte length of the contents
(String::len counts bytes) feeds the Content-Length of the log line.
The function formats the header line only into the log printed to
stdout, and writes only the status line, a blank line and the file
contents to the stream. -/
def handle_connection (fs : String → String) (request_line : String) : HandleResult :=
  let route := requestRoute request_line
  let status_line := route.1
  let filename := route.2
  let contents := fs filename
  let length := contents.utf8ByteSize
  let log := status_line
    ++ "\r\nContent-Type: text/html; charset=UTF-8\r\nContent-Length: " ++ toString length
  let response := status_line ++ "\r\n\r\n" ++ contents
  { stdoutLines := [log], streamWrites := [response] }

/-- Per-connection actions of the accept loop of main (src/main.rs lines
22-35).  The loop calls handle_connection directly on the accepting
thread; the model records which of the two dispatch styles each
connection got, so that the absence of pool submission is statable. -/
inductive ServerEvent
  | executeSubmitted (request_line : String)
  | inlineHandled (request_line : String) (result : HandleResult)
deriving DecidableEq

/-- Model of the accept loop of main (src/main.rs lines 22-35): every
accepted connection (represented by its request line) is handled inline
by handle_connection; no closure is submitted to any pool. -/
def serverLoop (fs : String → String) (requests : List String) : List ServerEvent :=
  requests.map (fun r => ServerEvent.inlineHandled r (handle_connection fs r))

/-- File-system oracle used by the concrete C9 counterexample. -/
def emptyFs : String → String := fun _ => ""

/-- Counterexample to C9 as stated: the accept loop of main handles the
connection with request line GET / HTTP/1.1 by calling handle_connection
inline on the accepting thread; no executeSubmitted event occurs, i.e.
the count of pool submissions for that connection is zero while its
inline handling is the sole event. -/
theorem server_inline_no_execute_cex :
    serverLoop emptyFs ["GET / HTTP/1.1"]
      = [ServerEvent.inlineHandled "GET / HTTP/1.1" (handle_connection emptyFs "GET / HTTP/1.1")]
    ∧ cnt (ServerEvent.executeSubmitted "GET / HTTP/1.1")
        (serverLoop emptyFs ["GET / HTTP/1.1"]) = 0 := by
  constructor
  · rfl
  · simp [serverLoop, cnt]

/-- C9 amended: every inbound connection is handled inline on the
accepting thread by a direct call to handle_connection, and the server
loop never submits anything to the worker pool: main neither imports nor
uses ThreadPool or execute. -/
theorem server_handles_inline (fs : String → String) (requests : List String)
    (r : String) (hr : r ∈ requests) :
    ServerEvent.inlineHandled r (handle_connection fs r) ∈ serverLoop fs requests
    ∧ ∀ q : String, cnt (ServerEvent.executeSubmitted q) (serverLoop fs requests) = 0 := by
  constructor
  · exact List.mem_map_of_mem (fun x => ServerEvent.inlineHandled x (handle_connection fs x)) hr
  · intro q
    clear hr
    unfold serverLoop
    induction requests with
    | nil => rfl
    | cons a t ih => simp [cnt, ih]

/-- Witness for the amended C9 at a singleton request list. -/
theorem server_handles_inline_witness :
    ("GET /x HTTP/1.1" ∈ ["GET /x HTTP/1.1"])
    ∧ ServerEvent.inlineHandled "GET /x HTTP/1.1" (handle_connection emptyFs "GET /x HTTP/1.1")
        ∈ serverLoop emptyFs ["GET /x HTTP/1.1"]
    ∧ cnt (ServerEvent.executeSubmitted "GET /x HTTP/1.1")
        (serverLoop emptyFs ["GET /x HTTP/1.1"]) = 0 := by
  have hth := server_handles_inline emptyFs ["GET /x HTTP/1.1"] "GET /x HTTP/1.1"
    (List.mem_cons_self _ _)
  exact ⟨List.mem_cons_self _ _, hth.1, hth.2 "GET /x HTTP/1.1"⟩

/-- C10: for every request line and file-system contents, the text
handle_connection writes to the stream is the single string made of the
status line, a blank line (CRLF CRLF) and the file contents, and nothing
else; the Content-Type and Content-Length header line appears only in
the single log line printed to stdout. -/
theorem response_status_blank_contents (fs : String → String) (request_line : String) :
    (handle_connection fs request_line).streamWrites
      = [(requestRoute request_line).1 ++ "\r\n\r\n" ++ fs (requestRoute request_line).2]
    ∧ (handle_connection fs request_line).stdoutLines
      = [(requestRoute request_line).1
          ++ "\r\nContent-Type: text/html; charset=UTF-8\r\nContent-Length: "
          ++ toString (fs (requestRoute request_line).2).utf8ByteSize]
    ∧ ((requestRoute request_line).1 = "HTTP/1.1 200 OK"
        ∨ (requestRoute request_line).1 = "HTTP/1.1 404 NOT FOUND") := by
  refine ⟨rfl, rfl, ?_⟩
  unfold requestRoute
  split_ifs <;> simp

end RustySpinner
